import Mathlib

/-!
Verification of the Beatha device-session manager (src/src/backend/server.py and
src/detect_ports.py) against its natural-language specification.

The Python code is shallowly embedded: strings are `List Char`, byte streams are
`List Nat`, the concurrent state machine is a step function over an explicit
session record (the single `state_lock` serializes every check-and-set, so a
concurrent execution is equivalent to a sequence of atomic events), and real
time is discretized in ticks of 0.1 s (the polling granularity of the code).
-/

namespace Beatha

/-! ## Generic character/list helpers (no counterpart in the source; used to
express Python primitives such as `in`, `split()`, `strip()`). -/

/-- Boolean test that the first list is an initial segment of the second
(Python substring search helper). -/
def leadsWith : List Char → List Char → Bool
  | [], _ => true
  | _ :: _, [] => false
  | a :: as, b :: bs => a == b && leadsWith as bs

/-- Python `needle in hay` for strings: substring occurrence. -/
def containsSub (needle : List Char) : List Char → Bool
  | [] => leadsWith needle []
  | c :: rest => leadsWith needle (c :: rest) || containsSub needle rest

/-- Whitespace characters recognised by Python `str.split()` / `str.strip()`
(ASCII fragment, which is all the serial protocol produces). -/
def wsChars : List Char := [' ', '\t', '\n', '\r', Char.ofNat 11, Char.ofNat 12]

def isWs (c : Char) : Bool := decide (c ∈ wsChars)

/-- Python `str.strip()` (ASCII whitespace from both ends). -/
def pyStrip (l : List Char) : List Char :=
  ((l.dropWhile isWs).reverse.dropWhile isWs).reverse

/-- Auxiliary for `splitWs`: accumulates the current word (reversed). -/
def splitWsAux : List Char → List Char → List (List Char)
  | [], acc => if acc = [] then [] else [acc.reverse]
  | c :: rest, acc =>
    if isWs c then
      if acc = [] then splitWsAux rest [] else acc.reverse :: splitWsAux rest []
    else splitWsAux rest (c :: acc)

/-- Python `str.split()` with no argument: split on whitespace runs, no empty
tokens. -/
def splitWs (l : List Char) : List (List Char) := splitWsAux l []

/-! ## `sanitize_dirname` (src/src/backend/server.py lines 28-50) -/

/-- The literal fallback token of `sanitize_dirname`. -/
def unknownTok : List Char := "unknown".toList

/-- Characters removed by the first regex of `sanitize_dirname`. -/
def badChars : List Char := ['/', '\\', ':', '*', '?', '"', '<', '>', '|']

/-- Control / non-printable characters removed by `sanitize_dirname`
(regex ranges \x00-\x1f and \x7f-\x9f). -/
def isCtl (c : Char) : Bool := c.toNat ≤ 0x1f || (0x7f ≤ c.toNat && c.toNat ≤ 0x9f)

/-- The character set of Python `strip('. \t\n\r')` in `sanitize_dirname`. -/
def stripChars : List Char := ['.', ' ', '\t', '\n', '\r']

def isStripChar (c : Char) : Bool := decide (c ∈ stripChars)

/-- Python `strip(chars)`: remove the given characters from both ends. -/
def stripBoth (l : List Char) : List Char :=
  ((l.dropWhile isStripChar).reverse.dropWhile isStripChar).reverse

/-- The regex substitution collapsing every run of underscores to a single
underscore (re.sub of underscore-plus in `sanitize_dirname`). -/
def collapseUnders : List Char → List Char
  | [] => []
  | [c] => [c]
  | c :: d :: rest =>
    if c = '_' ∧ d = '_' then collapseUnders (d :: rest)
    else c :: collapseUnders (d :: rest)

/-- The cleaning pipeline of `sanitize_dirname` before the final emptiness
fallback: remove path-hostile characters, replace spaces by underscores,
remove control characters, strip dots/whitespace at the ends, collapse
underscore runs. -/
def cleanName (s : List Char) : List Char :=
  collapseUnders (stripBoth
    (((s.filter (fun c => !decide (c ∈ badChars))).map
        (fun c => if c = ' ' then '_' else c)).filter (fun c => !isCtl c)))

/-- `sanitize_dirname` (server.py lines 28-50): empty input and empty cleaned
result both fall back to the literal token. -/
def sanitize_dirname (s : List Char) : List Char :=
  if s = [] then unknownTok
  else if cleanName s = [] then unknownTok
  else cleanName s

/-! ### Lemmas about the sanitation pipeline -/

theorem collapseUnders_sublist : ∀ l : List Char, List.Sublist (collapseUnders l) l
  | [] => by simp [collapseUnders]
  | [c] => by simp [collapseUnders]
  | c :: d :: rest => by
    rw [collapseUnders]
    split
    · exact (collapseUnders_sublist (d :: rest)).cons c
    · exact (collapseUnders_sublist (d :: rest)).cons₂ c

theorem collapseUnders_head? : ∀ l : List Char, (collapseUnders l).head? = l.head?
  | [] => rfl
  | [c] => rfl
  | c :: d :: rest => by
    rw [collapseUnders]
    split
    · rename_i h
      rw [collapseUnders_head? (d :: rest)]
      simp [h.1, h.2]
    · rfl

theorem collapseUnders_ne_nil (l : List Char) (h : l ≠ []) : collapseUnders l ≠ [] := by
  intro hc
  have := collapseUnders_head? l
  rw [hc] at this
  cases l with
  | nil => exact h rfl
  | cons a t => simp at this

theorem collapseUnders_getLast? : ∀ l : List Char, (collapseUnders l).getLast? = l.getLast?
  | [] => rfl
  | [c] => rfl
  | c :: d :: rest => by
    rw [collapseUnders]
    split
    · rw [collapseUnders_getLast? (d :: rest), List.getLast?_cons_cons]
    · have hne := collapseUnders_ne_nil (d :: rest) (by simp)
      cases hx : collapseUnders (d :: rest) with
      | nil => exact absurd hx hne
      | cons y ys =>
        rw [List.getLast?_cons_cons, ← hx, collapseUnders_getLast? (d :: rest),
          List.getLast?_cons_cons]

theorem collapseUnders_chain :
    ∀ l : List Char, (collapseUnders l).Chain' (fun a b => ¬(a = '_' ∧ b = '_'))
  | [] => by simp [collapseUnders]
  | [c] => by simp [collapseUnders]
  | c :: d :: rest => by
    rw [collapseUnders]
    split
    · exact collapseUnders_chain (d :: rest)
    · rename_i h
      rw [List.chain'_cons']
      refine ⟨?_, collapseUnders_chain (d :: rest)⟩
      intro y hy
      rw [collapseUnders_head? (d :: rest)] at hy
      simp only [List.head?_cons, Option.mem_def, Option.some.injEq] at hy
      subst hy
      exact h

theorem collapseUnders_eq_self :
    ∀ l : List Char, l.Chain' (fun a b => ¬(a = '_' ∧ b = '_')) → collapseUnders l = l
  | [], _ => rfl
  | [c], _ => rfl
  | c :: d :: rest, h => by
    rw [collapseUnders]
    have h2 := List.chain'_cons.mp h
    rw [if_neg h2.1, collapseUnders_eq_self (d :: rest) h2.2]

theorem dropWhile_head_not (p : Char → Bool) :
    ∀ l : List Char, ∀ c, (l.dropWhile p).head? = some c → p c = false
  | [], c => by simp [List.dropWhile]
  | a :: rest, c => by
    rw [List.dropWhile_cons]
    split
    · exact dropWhile_head_not p rest c
    · rename_i h
      intro hh
      simp only [List.head?_cons, Option.some.injEq] at hh
      subst hh
      simpa using h

theorem dropWhile_getLast?_eq (p : Char → Bool) :
    ∀ l : List Char, l.dropWhile p ≠ [] → (l.dropWhile p).getLast? = l.getLast?
  | [], h => by simp [List.dropWhile] at h
  | a :: rest, h => by
    rw [List.dropWhile_cons]
    rw [List.dropWhile_cons] at h
    split
    · rename_i hp
      rw [if_pos hp] at h
      have hrest : rest ≠ [] := by
        intro he
        apply h
        rw [he]
        rfl
      rw [dropWhile_getLast?_eq p rest h]
      cases rest with
      | nil => exact absurd rfl hrest
      | cons b t => rw [List.getLast?_cons_cons]
    · rfl

theorem dropWhile_eq_self_of_head (p : Char → Bool) (l : List Char)
    (h : ∀ c, l.head? = some c → p c = false) : l.dropWhile p = l := by
  cases l with
  | nil => rfl
  | cons a t =>
    rw [List.dropWhile_cons, if_neg]
    simp [h a rfl]

theorem stripBoth_sublist (l : List Char) : List.Sublist (stripBoth l) l := by
  unfold stripBoth
  have h1 : List.Sublist (l.dropWhile isStripChar) l := List.dropWhile_sublist _
  have h2 : List.Sublist ((l.dropWhile isStripChar).reverse.dropWhile isStripChar)
      (l.dropWhile isStripChar).reverse := List.dropWhile_sublist _
  have h3 := (h2.reverse).trans (by simpa using h1)
  simpa using h3

theorem stripBoth_head_not (l : List Char) (c : Char)
    (h : (stripBoth l).head? = some c) : isStripChar c = false := by
  unfold stripBoth at h
  rw [List.head?_reverse] at h
  by_cases hne : (l.dropWhile isStripChar).reverse.dropWhile isStripChar = []
  · rw [hne] at h
    simp at h
  · rw [dropWhile_getLast?_eq isStripChar _ hne, List.getLast?_reverse] at h
    exact dropWhile_head_not isStripChar l c h

theorem stripBoth_getLast_not (l : List Char) (c : Char)
    (h : (stripBoth l).getLast? = some c) : isStripChar c = false := by
  unfold stripBoth at h
  rw [List.getLast?_reverse] at h
  exact dropWhile_head_not isStripChar _ c h

theorem stripBoth_eq_self (l : List Char)
    (hh : ∀ c, l.head? = some c → isStripChar c = false)
    (hl : ∀ c, l.getLast? = some c → isStripChar c = false) : stripBoth l = l := by
  unfold stripBoth
  rw [dropWhile_eq_self_of_head isStripChar l hh]
  rw [dropWhile_eq_self_of_head isStripChar l.reverse (by
    intro c hc
    rw [List.head?_reverse] at hc
    exact hl c hc)]
  simp

theorem map_eq_self_of (l : List Char) (f : Char → Char) (h : ∀ c ∈ l, f c = c) :
    l.map f = l := by
  induction l with
  | nil => rfl
  | cons a t ih => simp [h a (by simp), ih (fun c hc => h c (by simp [hc]))]

theorem ws_mem_cases (c : Char) (h : c ∈ wsChars) : c = ' ' ∨ isCtl c = true := by
  simp only [wsChars, List.mem_cons, List.not_mem_nil, or_false] at h
  rcases h with rfl | rfl | rfl | rfl | rfl | rfl
  · exact Or.inl rfl
  all_goals exact Or.inr (by decide)

theorem strip_mem_cases (c : Char) (h : c ∈ stripChars) : c = '.' ∨ c ∈ wsChars := by
  simp only [stripChars, List.mem_cons, List.not_mem_nil, or_false] at h
  rcases h with rfl | rfl | rfl | rfl | rfl
  · exact Or.inl rfl
  all_goals exact Or.inr (by decide)

/-- Boolean test that the list contains no two adjacent underscores. -/
def noUnderRun : List Char → Bool
  | [] => true
  | [_] => true
  | c :: d :: rest => !(c == '_' && d == '_') && noUnderRun (d :: rest)

theorem noUnderRun_iff_chain :
    ∀ l : List Char, noUnderRun l = true ↔ l.Chain' (fun a b => ¬(a = '_' ∧ b = '_'))
  | [] => by simp [noUnderRun]
  | [c] => by simp [noUnderRun]
  | c :: d :: rest => by
    rw [noUnderRun, List.chain'_cons, Bool.and_eq_true, noUnderRun_iff_chain (d :: rest)]
    constructor
    · rintro ⟨h1, h2⟩
      refine ⟨?_, h2⟩
      rintro ⟨rfl, rfl⟩
      simp at h1
    · rintro ⟨h1, h2⟩
      refine ⟨?_, h2⟩
      simp only [Bool.not_eq_eq_eq_not, Bool.not_true, Bool.and_eq_false_imp, beq_iff_eq]
      intro hc
      by_contra hd
      simp only [Bool.not_eq_false, beq_iff_eq] at hd
      exact h1 ⟨hc, hd⟩

/-- The guarantees the spec states for a sanitized directory name: no
path-hostile character, no whitespace, no control character, no leading or
trailing dot, no run of underscores, nonempty. -/
def goodName (l : List Char) : Prop :=
  (∀ c ∈ l, c ∉ badChars ∧ c ∉ wsChars ∧ isCtl c = false)
  ∧ l.head? ≠ some '.'
  ∧ l.getLast? ≠ some '.'
  ∧ noUnderRun l = true
  ∧ l ≠ []

instance goodName_decidable (l : List Char) : Decidable (goodName l) :=
  inferInstanceAs (Decidable
    ((∀ c ∈ l, c ∉ badChars ∧ c ∉ wsChars ∧ isCtl c = false)
      ∧ l.head? ≠ some '.'
      ∧ l.getLast? ≠ some '.'
      ∧ noUnderRun l = true
      ∧ l ≠ []))

theorem cleanName_mem (s : List Char) (c : Char) (hc : c ∈ cleanName s) :
    c ∉ badChars ∧ c ≠ ' ' ∧ isCtl c = false := by
  unfold cleanName at hc
  have h3 := (stripBoth_sublist _).subset ((collapseUnders_sublist _).subset hc)
  rw [List.mem_filter] at h3
  obtain ⟨h2, hctl⟩ := h3
  rw [List.mem_map] at h2
  obtain ⟨x, hx, hfx⟩ := h2
  rw [List.mem_filter] at hx
  refine ⟨?_, ?_, by simpa using hctl⟩
  · by_cases hsp : x = ' '
    · rw [hsp] at hfx
      simp at hfx
      rw [← hfx]
      decide
    · rw [if_neg hsp] at hfx
      subst hfx
      simpa using hx.2
  · by_cases hsp : x = ' '
    · rw [hsp] at hfx
      simp at hfx
      rw [← hfx]
      decide
    · rw [if_neg hsp] at hfx
      subst hfx
      exact hsp

theorem cleanName_goodName (s : List Char) (hne : cleanName s ≠ []) :
    goodName (cleanName s) := by
  refine ⟨?_, ?_, ?_, ?_, hne⟩
  · intro c hc
    obtain ⟨hb, hs, hctl⟩ := cleanName_mem s c hc
    refine ⟨hb, ?_, hctl⟩
    intro hws
    rcases ws_mem_cases c hws with h | h
    · exact hs h
    · rw [hctl] at h
      cases h
  · intro hh
    unfold cleanName at hh
    rw [collapseUnders_head?] at hh
    have := stripBoth_head_not _ _ hh
    simp [isStripChar, stripChars] at this
  · intro hh
    unfold cleanName at hh
    rw [collapseUnders_getLast?] at hh
    have := stripBoth_getLast_not _ _ hh
    simp [isStripChar, stripChars] at this
  · exact (noUnderRun_iff_chain _).mpr (collapseUnders_chain _)

theorem sanitize_goodName (s : List Char) : goodName (sanitize_dirname s) := by
  unfold sanitize_dirname
  split
  · decide
  · split
    · decide
    · rename_i hne
      exact cleanName_goodName s hne

theorem cleanName_eq_of_good (l : List Char) (h : goodName l) : cleanName l = l := by
  obtain ⟨hmem, hh, hl, hch, hne⟩ := h
  have hhead : ∀ c, l.head? = some c → isStripChar c = false := by
    intro c hc
    have hcl : c ∈ l := List.mem_of_mem_head? hc
    simp only [isStripChar, decide_eq_false_iff_not]
    intro hstrip
    rcases strip_mem_cases c hstrip with rfl | hws
    · exact hh hc
    · exact (hmem c hcl).2.1 hws
  have hlast : ∀ c, l.getLast? = some c → isStripChar c = false := by
    intro c hc
    have hcl : c ∈ l := List.mem_of_mem_getLast? hc
    simp only [isStripChar, decide_eq_false_iff_not]
    intro hstrip
    rcases strip_mem_cases c hstrip with rfl | hws
    · exact hl hc
    · exact (hmem c hcl).2.1 hws
  have hf1 : l.filter (fun c => !decide (c ∈ badChars)) = l := by
    rw [List.filter_eq_self]
    intro a ha
    simpa using (hmem a ha).1
  have hmap : l.map (fun c => if c = ' ' then '_' else c) = l := by
    apply map_eq_self_of
    intro c hc
    rw [if_neg]
    intro hsp
    exact (hmem c hc).2.1 (by rw [hsp]; decide)
  have hf2 : l.filter (fun c => !isCtl c) = l := by
    rw [List.filter_eq_self]
    intro a ha
    simp [(hmem a ha).2.2]
  unfold cleanName
  rw [hf1, hmap, hf2, stripBoth_eq_self l hhead hlast,
    collapseUnders_eq_self l ((noUnderRun_iff_chain l).mp hch)]

theorem sanitize_eq_of_good (l : List Char) (h : goodName l) : sanitize_dirname l = l := by
  unfold sanitize_dirname
  rw [if_neg h.2.2.2.2, cleanName_eq_of_good l h, if_neg h.2.2.2.2]

/-- The example input of the spec for sanitation. -/
def exInputC7 : List Char := "My Quad:Test/1".toList

/-- An input whose cleaned form is empty (dots are stripped from the ends). -/
def dotsOnly : List Char := "...".toList

/-- Claim C7: for every input string, `sanitize_dirname` returns a string with
none of the path-hostile characters, no control characters, no whitespace
(spaces having been turned into underscores, with runs collapsed), no leading
or trailing dot, and the result is never empty: it falls back to the literal
token when the cleaned string would be empty, including for the empty input. -/
theorem claim_C7_sanitize_dirname (s : List Char) :
    goodName (sanitize_dirname s)
    ∧ (cleanName s = [] → sanitize_dirname s = unknownTok)
    ∧ sanitize_dirname [] = unknownTok := by
  refine ⟨sanitize_goodName s, ?_, by decide⟩
  intro h
  simp [sanitize_dirname, h]

/-- Witness for C7: the guarantees at the spec's example input, and the fallback
at a dots-only input whose cleaned form is empty. -/
theorem claim_C7_sanitize_dirname_witness :
    goodName (sanitize_dirname exInputC7) ∧ sanitize_dirname dotsOnly = unknownTok :=
  ⟨(claim_C7_sanitize_dirname exInputC7).1,
    (claim_C7_sanitize_dirname dotsOnly).2.1 (by decide)⟩

/-- Claim C10: `sanitize_dirname` is idempotent, so directory names already
produced by sanitization pass through unchanged. -/
theorem claim_C10_sanitize_idempotent (s : List Char) :
    sanitize_dirname (sanitize_dirname s) = sanitize_dirname s :=
  sanitize_eq_of_good _ (sanitize_goodName s)

/-! ## UTF-8 decoding with errors ignored

Python `bytes.decode(utf-8, errors=ignore)` never raises: every byte that
belongs to an invalid sequence is silently dropped.  This is the decoding used
on every serial line the manager reads. -/

/-- UTF-8 continuation byte test. -/
def isContB (b : Nat) : Bool := 0x80 ≤ b && b ≤ 0xbf

/-- Lower bound of the first continuation byte of a three-byte sequence
(excludes overlong encodings). -/
def cont3Lo (b : Nat) : Nat := if b = 0xe0 then 0xa0 else 0x80

/-- Upper bound of the first continuation byte of a three-byte sequence
(excludes surrogates). -/
def cont3Hi (b : Nat) : Nat := if b = 0xed then 0x9f else 0xbf

/-- Lower bound of the first continuation byte of a four-byte sequence. -/
def cont4Lo (b : Nat) : Nat := if b = 0xf0 then 0x90 else 0x80

/-- Upper bound of the first continuation byte of a four-byte sequence
(excludes code points beyond the Unicode range). -/
def cont4Hi (b : Nat) : Nat := if b = 0xf4 then 0x8f else 0xbf

/-- UTF-8 decoding that drops every byte belonging to an invalid sequence
(the behaviour of Python decode with errors ignored).  The fuel argument only
serves termination: every step consumes at least one byte, so running with the
length of the input as fuel never exhausts it. -/
def utf8Go : Nat → List Nat → List Char
  | 0, _ => []
  | _ + 1, [] => []
  | fuel + 1, b :: rest =>
    if b < 0x80 then Char.ofNat b :: utf8Go fuel rest
    else if b < 0xc2 then utf8Go fuel rest
    else if b ≤ 0xdf then
      match rest with
      | c1 :: rest2 =>
        if isContB c1 then
          Char.ofNat ((b - 0xc0) * 0x40 + (c1 - 0x80)) :: utf8Go fuel rest2
        else utf8Go fuel rest
      | [] => []
    else if b ≤ 0xef then
      match rest with
      | c1 :: c2 :: rest3 =>
        if cont3Lo b ≤ c1 && c1 ≤ cont3Hi b && isContB c2 then
          Char.ofNat ((b - 0xe0) * 0x1000 + (c1 - 0x80) * 0x40 + (c2 - 0x80)) ::
            utf8Go fuel rest3
        else utf8Go fuel rest
      | _ => utf8Go fuel rest
    else if b ≤ 0xf4 then
      match rest with
      | c1 :: c2 :: c3 :: rest4 =>
        if cont4Lo b ≤ c1 && c1 ≤ cont4Hi b && isContB c2 && isContB c3 then
          Char.ofNat ((b - 0xf0) * 0x40000 + (c1 - 0x80) * 0x1000 +
            (c2 - 0x80) * 0x40 + (c3 - 0x80)) :: utf8Go fuel rest4
        else utf8Go fuel rest
      | _ => utf8Go fuel rest
    else utf8Go fuel rest

/-- Python bytes decode with errors ignored. -/
def utf8DecodeIgnore (l : List Nat) : List Char := utf8Go l.length l

/-- Bytes of an ASCII string, for writing concrete probe inputs. -/
def strBytes (s : String) : List Nat := s.toList.map Char.toNat

/-! ## Firmware identification (`detect_fc_type`, server.py lines 183-274) -/

/-- The identification result populated by `detect_fc_type`. -/
structure FCInfo where
  type : List Char
  version : List Char
  target : List Char
  raw : List Char
deriving DecidableEq

def kwBetaflight : List Char := "Betaflight".toList
def kwINAV : List Char := "INAV".toList
def kwArduPilot : List Char := "ArduPilot".toList
def kwChibiOS : List Char := "ChibiOS".toList
def kwCC3D : List Char := "CC3D".toList
def kwOpenPilot : List Char := "OpenPilot".toList
def kwEmuflight : List Char := "Emuflight".toList
def kwGCC : List Char := "GCC".toList
def kwConfig : List Char := "Config".toList
def tokUnknown : List Char := "Unknown".toList
def ccType : List Char := "CC3D/OpenPilot".toList
def noResponseMsg : List Char := "No response from flight controller".toList

/-- Python `strip` with the parenthesis characters, used on the Betaflight
target token. -/
def isParen (c : Char) : Bool := c = '(' || c = ')'

def stripParens (l : List Char) : List Char :=
  ((l.dropWhile isParen).reverse.dropWhile isParen).reverse

/-- Python `p[0].isdigit()` on a token. -/
def headDigit (t : List Char) : Bool :=
  match t with
  | [] => false
  | c :: _ => c.isDigit

/-- The generator expression picking the first whitespace token that begins
with a digit, defaulting to the Unknown token. -/
def firstDigitToken (parts : List (List Char)) : List Char :=
  (parts.find? headDigit).getD tokUnknown

/-- The positional Betaflight target token: index 3 of the split line if
present, with surrounding parentheses stripped. -/
def bfTarget (parts : List (List Char)) : List Char :=
  stripParens ((parts.get? 3).getD tokUnknown)

/-- The per-line branch of `detect_fc_type`: the if/elif cascade matching
firmware signatures in source order (Betaflight, INAV, ArduPilot or ChibiOS,
CC3D or OpenPilot). -/
def classifyLine (line : List Char) : Option FCInfo :=
  if containsSub kwBetaflight line then
    some ⟨kwBetaflight, firstDigitToken (splitWs line), bfTarget (splitWs line), line⟩
  else if containsSub kwINAV line then
    some ⟨kwINAV, firstDigitToken (splitWs line), tokUnknown, line⟩
  else if containsSub kwArduPilot line || containsSub kwChibiOS line then
    some ⟨kwArduPilot, tokUnknown, tokUnknown, line⟩
  else if containsSub kwCC3D line || containsSub kwOpenPilot line then
    some ⟨ccType, tokUnknown, kwCC3D, line⟩
  else none

/-- The read loop of `detect_fc_type` over the lines received within the probe
window, accumulating the nonempty decoded lines into the raw trace; a matching
line returns immediately; after the window the loop returns an Unknown result
if any data accumulated and raises the no-response error otherwise. -/
def detectLoop : List (List Nat) → List Char → Except (List Char) FCInfo
  | [], acc =>
    if acc = [] then .error noResponseMsg
    else .ok ⟨tokUnknown, tokUnknown, tokUnknown, acc.take 200⟩
  | bl :: rest, acc =>
    if pyStrip (utf8DecodeIgnore bl) = [] then detectLoop rest acc
    else
      match classifyLine (pyStrip (utf8DecodeIgnore bl)) with
      | some info => .ok info
      | none => detectLoop rest (acc ++ pyStrip (utf8DecodeIgnore bl) ++ ['\n'])

/-- `detect_fc_type` on the sequence of byte lines received within the probe
window (the serial interaction abstracted to its received lines). -/
def detect_fc_type (lines : List (List Nat)) : Except (List Char) FCInfo :=
  detectLoop lines []

/-- The nonempty decoded-and-stripped lines of the probe response, in arrival
order. -/
def decodedLines (lines : List (List Nat)) : List (List Char) :=
  (lines.map (fun bl => pyStrip (utf8DecodeIgnore bl))).filter (fun l => !decide (l = []))

def joinNl (ds : List (List Char)) : List Char := (ds.map (fun l => l ++ ['\n'])).flatten

/-- Declarative first-match semantics of the identification loop: the first
nonempty decoded line matching a signature decides the result; otherwise
Unknown-with-data when any nonempty line arrived; otherwise the no-response
error. -/
def classifySpec (lines : List (List Nat)) : Except (List Char) FCInfo :=
  let ds := decodedLines lines
  match ds.findSome? classifyLine with
  | some info => .ok info
  | none =>
    if ds = [] then .error noResponseMsg
    else .ok ⟨tokUnknown, tokUnknown, tokUnknown, (joinNl ds).take 200⟩

/-- Projection of an identification result to its firmware type. -/
def resultType (r : Except (List Char) FCInfo) : Option (List Char) :=
  match r with
  | .ok i => some i.type
  | .error _ => none

/-- Projection of an identification result to its firmware type and version. -/
def resultTypeVersion (r : Except (List Char) FCInfo) : Option (List Char × List Char) :=
  match r with
  | .ok i => some (i.type, i.version)
  | .error _ => none

theorem detectLoop_eq (lines : List (List Nat)) : ∀ acc,
    detectLoop lines acc =
      match (decodedLines lines).findSome? classifyLine with
      | some info => .ok info
      | none =>
        if acc = [] ∧ decodedLines lines = [] then .error noResponseMsg
        else .ok ⟨tokUnknown, tokUnknown, tokUnknown,
            (acc ++ joinNl (decodedLines lines)).take 200⟩ := by
  induction lines with
  | nil =>
    intro acc
    rw [detectLoop]
    simp [decodedLines, joinNl]
  | cons bl rest ih =>
    intro acc
    rw [detectLoop]
    by_cases hline : pyStrip (utf8DecodeIgnore bl) = []
    · rw [if_pos hline]
      have hds : decodedLines (bl :: rest) = decodedLines rest := by
        simp [decodedLines, List.filter_cons, hline]
      rw [hds, ih acc]
    · rw [if_neg hline]
      have hds : decodedLines (bl :: rest) =
          pyStrip (utf8DecodeIgnore bl) :: decodedLines rest := by
        simp [decodedLines, List.filter_cons, hline]
      rw [hds]
      cases hcl : classifyLine (pyStrip (utf8DecodeIgnore bl)) with
      | some info =>
        rw [List.findSome?_cons, hcl]
      | none =>
        rw [List.findSome?_cons, hcl, ih]
        have hacc : ¬(acc ++ pyStrip (utf8DecodeIgnore bl) ++ ['\n'] = [] ∧
            decodedLines rest = []) := by
          rintro ⟨h1, _⟩
          simp at h1
        cases hfs : (decodedLines rest).findSome? classifyLine with
        | some info => rfl
        | none =>
          rw [if_neg hacc, if_neg (by rintro ⟨_, h2⟩; cases h2)]
          have hjoin : joinNl (pyStrip (utf8DecodeIgnore bl) :: decodedLines rest) =
              (pyStrip (utf8DecodeIgnore bl) ++ ['\n']) ++ joinNl (decodedLines rest) := by
            simp [joinNl]
          rw [hjoin]
          simp [List.append_assoc]

/-- The identification loop computes exactly the declarative first-match
classification (helper shared by the claims about `detect_fc_type`). -/
theorem detect_eq_spec (lines : List (List Nat)) :
    detect_fc_type lines = classifySpec lines := by
  rw [detect_fc_type, detectLoop_eq lines [], classifySpec]
  cases hfs : (decodedLines lines).findSome? classifyLine with
  | some info => rfl
  | none =>
    simp only [true_and]
    rfl

/-- A line containing a byte that fails UTF-8 decoding together with both a
Betaflight and a ChibiOS marker. -/
def c4Bytes : List Nat := 0xff :: strBytes "# Betaflight / ChibiOS 4.4.0"

/-- Claim C4 counterexample: this probe response contains a non-decodable byte
(0xff) and an explicit ChibiOS marker, so the claim classifies it as
ArduPilot-class; the code decodes with errors ignored (the bad byte is
dropped, no exception fires) and its per-line cascade tests Betaflight first,
so the result is Betaflight. -/
theorem claim_C4_counterexample :
    resultType (detect_fc_type [c4Bytes]) = some kwBetaflight
    ∧ kwBetaflight ≠ kwArduPilot := by
  constructor
  · decide
  · decide

/-- Claim C4 (amended): the identification loop scans the nonempty decoded
lines in arrival order and the first line matching any signature decides the
result, the per-line precedence being Betaflight, then INAV, then
ArduPilot/ChibiOS, then CC3D/OpenPilot, then Unknown-with-data, then
no-response; bytes that fail to decode are dropped by the errors-ignoring
decode and never trigger the ArduPilot branch by themselves. -/
theorem claim_C4_classification (lines : List (List Nat)) :
    detect_fc_type lines = classifySpec lines
    ∧ (∀ line : List Char, containsSub kwBetaflight line = true →
        ∃ i, classifyLine line = some i ∧ i.type = kwBetaflight)
    ∧ (∀ line : List Char, containsSub kwBetaflight line = false →
        containsSub kwINAV line = false →
        (containsSub kwArduPilot line = true ∨ containsSub kwChibiOS line = true) →
        classifyLine line = some ⟨kwArduPilot, tokUnknown, tokUnknown, line⟩) := by
  refine ⟨detect_eq_spec lines, ?_, ?_⟩
  · intro line h
    exact ⟨⟨kwBetaflight, firstDigitToken (splitWs line), bfTarget (splitWs line), line⟩,
      by rw [classifyLine, if_pos h], rfl⟩
  · intro line h1 h2 h3
    rw [classifyLine, if_neg (by simp [h1]), if_neg (by simp [h2]), if_pos (by
      rcases h3 with h | h
      · simp [h]
      · simp [h])]

/-- Witness for C4: the amended precedence at concrete lines (a line carrying
both markers goes to Betaflight, a ChibiOS-only line goes to ArduPilot). -/
theorem claim_C4_classification_witness :
    (∃ i, classifyLine (pyStrip (utf8DecodeIgnore c4Bytes)) = some i
        ∧ i.type = kwBetaflight)
    ∧ classifyLine kwChibiOS = some ⟨kwArduPilot, tokUnknown, tokUnknown, kwChibiOS⟩ :=
  ⟨(claim_C4_classification []).2.1 _ (by decide),
    (claim_C4_classification []).2.2 kwChibiOS (by decide) (by decide) (Or.inr (by decide))⟩

/-- The spec's example Betaflight version line. -/
def c5Line : List Char := "# Betaflight / STM32F405 (S405) 4.4.0 ...".toList

def c5Bytes : List Nat := 0x23 :: strBytes " Betaflight / STM32F405 (S405) 4.4.0 ..."

def ver440 : List Char := "4.4.0".toList

/-- Claim C5: on any line carrying the Betaflight marker, the parsed version is
the first whitespace-delimited token beginning with a digit (or the Unknown
token when no such token exists); in particular the spec's example line parses
to type Betaflight and version 4.4.0. -/
theorem claim_C5_version_parse :
    (∀ line : List Char, containsSub kwBetaflight line = true →
      ∃ i, classifyLine line = some i ∧ i.type = kwBetaflight ∧
        i.version = firstDigitToken (splitWs line) ∧
        ((∃ t ∈ splitWs line, headDigit t = true) →
          ∃ pre post, splitWs line = pre ++ i.version :: post ∧
            headDigit i.version = true ∧ ∀ t ∈ pre, headDigit t = false))
    ∧ resultTypeVersion (detect_fc_type [c5Bytes]) = some (kwBetaflight, ver440) := by
  constructor
  · intro line h
    refine ⟨_, by rw [classifyLine, if_pos h], rfl, rfl, ?_⟩
    intro hex
    cases hfind : (splitWs line).find? headDigit with
    | some v =>
      obtain ⟨hp, pre, post, heq, hpre⟩ := List.find?_eq_some.mp hfind
      refine ⟨pre, post, ?_, ?_, ?_⟩
      · simpa [firstDigitToken, hfind] using heq
      · simpa [firstDigitToken, hfind] using hp
      · intro t ht
        simpa using hpre t ht
    | none =>
      obtain ⟨t, ht, hdig⟩ := hex
      have := List.find?_eq_none.mp hfind t ht
      rw [hdig] at this
      exact (this rfl).elim
  · decide

/-- Witness for C5: the general version-parse statement applied to the spec's
example line. -/
theorem claim_C5_version_parse_witness :
    ∃ i, classifyLine c5Line = some i ∧ i.type = kwBetaflight ∧
      i.version = firstDigitToken (splitWs c5Line) ∧
      ((∃ t ∈ splitWs c5Line, headDigit t = true) →
        ∃ pre post, splitWs c5Line = pre ++ i.version :: post ∧
          headDigit i.version = true ∧ ∀ t ∈ pre, headDigit t = false) :=
  claim_C5_version_parse.1 c5Line (by decide)

/-- Claim C6 counterexample: a response consisting of one line with a single
non-decodable byte is received data, yet `detect_fc_type` raises the
no-response error rather than returning an Unknown-tagged result — the claim's
"no response if and only if no data at all was received" fails here. -/
theorem claim_C6_counterexample :
    detect_fc_type [[0xff]] = .error noResponseMsg
    ∧ ([[0xff]] : List (List Nat)) ≠ []
    ∧ ([0xff] : List Nat) ≠ [] := by
  refine ⟨by rfl, by decide, by decide⟩

/-- Claim C6 (amended): the identifier raises the no-response error if and only
if every received line decodes (with invalid bytes ignored) and strips to the
empty string — in particular when nothing at all was received; whenever some
decoded line is nonempty and no signature matches, it returns a result tagged
Unknown carrying the raw response; the two failure kinds are never conflated. -/
theorem claim_C6_failure_kinds (lines : List (List Nat)) :
    ((∃ e, detect_fc_type lines = .error e) ↔ decodedLines lines = [])
    ∧ (detect_fc_type lines = .error noResponseMsg ↔ decodedLines lines = [])
    ∧ (decodedLines lines ≠ [] →
        (∀ l ∈ decodedLines lines, classifyLine l = none) →
        detect_fc_type lines =
          .ok ⟨tokUnknown, tokUnknown, tokUnknown, (joinNl (decodedLines lines)).take 200⟩) := by
  have hspec := detect_eq_spec lines
  refine ⟨?_, ?_, ?_⟩
  · rw [hspec, classifySpec]
    cases hfs : (decodedLines lines).findSome? classifyLine with
    | some info =>
      simp only
      constructor
      · rintro ⟨e, he⟩
        cases he
      · intro hds
        rw [hds] at hfs
        simp at hfs
    | none =>
      simp only
      by_cases hds : decodedLines lines = []
      · rw [if_pos hds]
        exact ⟨fun _ => hds, fun _ => ⟨noResponseMsg, rfl⟩⟩
      · rw [if_neg hds]
        constructor
        · rintro ⟨e, he⟩
          cases he
        · intro h
          exact absurd h hds
  · rw [hspec, classifySpec]
    cases hfs : (decodedLines lines).findSome? classifyLine with
    | some info =>
      simp only
      constructor
      · intro he
        cases he
      · intro hds
        rw [hds] at hfs
        simp at hfs
    | none =>
      simp only
      by_cases hds : decodedLines lines = []
      · rw [if_pos hds]
        exact ⟨fun _ => hds, fun _ => rfl⟩
      · rw [if_neg hds]
        exact ⟨fun he => Except.noConfusion he, fun h => absurd h hds⟩
  · intro hne hnone
    rw [hspec, classifySpec]
    have hfs : (decodedLines lines).findSome? classifyLine = none :=
      List.findSome?_eq_none_iff.mpr hnone
    rw [hfs]
    simp only
    rw [if_neg hne]

def helloBytes : List Nat := strBytes "hello"

/-- Witness for C6: no data at all gives the no-response error; a nonempty
unmatched line gives the Unknown-tagged result. -/
theorem claim_C6_failure_kinds_witness :
    detect_fc_type ([] : List (List Nat)) = .error noResponseMsg
    ∧ detect_fc_type [helloBytes] =
        .ok ⟨tokUnknown, tokUnknown, tokUnknown, (joinNl (decodedLines [helloBytes])).take 200⟩ :=
  ⟨(claim_C6_failure_kinds []).2.1.mpr (by decide),
    (claim_C6_failure_kinds [helloBytes]).2.2 (by decide) (by decide)⟩

/-! ## Session state machine (server.py: BeathaManager.state, state_lock,
trigger_dump, trigger_pair, and the final return-to-IDLE of the workflows).

Every check-and-set of `state` happens under the single `state_lock`, so a
concurrent execution is equivalent to a sequence of atomic events on the
session; the model is that sequence. -/

inductive Mode
  | IDLE
  | DUMPING
  | PAIRING
deriving DecidableEq

/-- The session fields relevant to the mode machine: the mode itself, the
number of workflow threads started and not yet returned to IDLE, the
drone_connected flag, and the EMULATION_MODE constant. -/
structure Sess where
  mode : Mode
  active : Nat
  connected : Bool
  emulation : Bool
deriving DecidableEq

/-- `trigger_dump` (server.py lines 764-774), executed atomically under
state_lock.  Returns the new session together with whether a workflow thread
was started and whether the error cue (beep) was emitted. -/
def trigger_dump (s : Sess) : Sess × Bool × Bool :=
  if s.mode ≠ Mode.IDLE then (s, false, false)
  else if s.connected = false ∧ s.emulation = false then (s, false, true)
  else ({ s with mode := Mode.DUMPING, active := s.active + 1 }, true, false)

/-- `trigger_pair` (server.py lines 706-712), executed atomically under
state_lock. -/
def trigger_pair (s : Sess) : Sess × Bool × Bool :=
  if s.mode ≠ Mode.IDLE then (s, false, false)
  else ({ s with mode := Mode.PAIRING, active := s.active + 1 }, true, false)

/-- The atomic events on the session: the two trigger requests (from any
thread: button monitor or HTTP handler) and the final `state = IDLE` of a
running workflow (`_perform_extraction` / `_perform_pairing`, executed under
the same lock).  A complete event can only be issued by a running workflow;
with none running it is a no-op of the environment. -/
inductive Ev
  | tDump
  | tPair
  | complete

def step (s : Sess) : Ev → Sess
  | .tDump => (trigger_dump s).1
  | .tPair => (trigger_pair s).1
  | .complete =>
    if s.active = 0 then s else { s with mode := Mode.IDLE, active := s.active - 1 }

def run (s : Sess) (evs : List Ev) : Sess := evs.foldl step s

/-- The startup state (BeathaManager is created IDLE with no workflow). -/
def initSess (c e : Bool) : Sess := ⟨Mode.IDLE, 0, c, e⟩

/-- The mutual-exclusion invariant: at most one workflow runs, and one runs
exactly when the mode is not IDLE. -/
def sessInv (s : Sess) : Prop :=
  s.active ≤ 1 ∧ (s.mode = Mode.IDLE ↔ s.active = 0)

theorem step_inv (s : Sess) (e : Ev) (h : sessInv s) : sessInv (step s e) := by
  obtain ⟨h1, h2⟩ := h
  cases e with
  | tDump =>
    simp only [step, trigger_dump]
    split
    · exact ⟨h1, h2⟩
    · split
      · exact ⟨h1, h2⟩
      · rename_i hm _
        have h0 : s.active = 0 := h2.mp (not_not.mp hm)
        constructor
        · simp [h0]
        · simp
  | tPair =>
    simp only [step, trigger_pair]
    split
    · exact ⟨h1, h2⟩
    · rename_i hm
      have h0 : s.active = 0 := h2.mp (not_not.mp hm)
      constructor
      · simp [h0]
      · simp
  | complete =>
    simp only [step]
    split
    · exact ⟨h1, h2⟩
    · rename_i ha
      have : s.active = 1 := by omega
      constructor
      · simp [this]
      · simp [this]

theorem run_inv (evs : List Ev) : ∀ s : Sess, sessInv s → sessInv (run s evs) := by
  induction evs with
  | nil => intro s h; exact h
  | cons e rest ih =>
    intro s h
    exact ih (step s e) (step_inv s e h)

/-- Claim C1: mode transitions only along IDLE to DUMPING/PAIRING and back to
IDLE; a trigger observed while mode is not IDLE changes nothing (the check and
the set being atomic under the one lock, modeled by atomic events); over every
event sequence from startup at most one workflow is active, and one is active
exactly when the mode is not IDLE — so two concurrent trigger calls never
produce two simultaneous non-IDLE modes. -/
theorem claim_C1_mode_machine :
    (∀ s : Sess, s.mode ≠ Mode.IDLE → step s Ev.tDump = s ∧ step s Ev.tPair = s)
    ∧ (∀ (s : Sess) (e : Ev),
        (step s e).mode = s.mode
        ∨ (s.mode = Mode.IDLE ∧
            ((step s e).mode = Mode.DUMPING ∨ (step s e).mode = Mode.PAIRING))
        ∨ (step s e).mode = Mode.IDLE)
    ∧ (∀ (c e : Bool) (evs : List Ev),
        (run (initSess c e) evs).active ≤ 1
        ∧ ((run (initSess c e) evs).mode = Mode.IDLE ↔
            (run (initSess c e) evs).active = 0)) := by
  refine ⟨?_, ?_, ?_⟩
  · intro s hm
    constructor
    · simp [step, trigger_dump, if_pos hm]
    · simp [step, trigger_pair, if_pos hm]
  · intro s e
    cases e with
    | tDump =>
      simp only [step, trigger_dump]
      split
      · exact Or.inl rfl
      · split
        · exact Or.inl rfl
        · rename_i hm _
          exact Or.inr (Or.inl ⟨not_not.mp hm, Or.inl rfl⟩)
    | tPair =>
      simp only [step, trigger_pair]
      split
      · exact Or.inl rfl
      · rename_i hm
        exact Or.inr (Or.inl ⟨not_not.mp hm, Or.inr rfl⟩)
    | complete =>
      simp only [step]
      split
      · exact Or.inl rfl
      · exact Or.inr (Or.inr rfl)
  · intro c e evs
    exact run_inv evs (initSess c e) ⟨by simp [initSess], by simp [initSess]⟩

/-- Witness for C1: a trigger arriving while an extraction runs changes
nothing, and a double trigger from IDLE starts exactly one workflow. -/
theorem claim_C1_mode_machine_witness :
    step ⟨Mode.DUMPING, 1, true, false⟩ Ev.tDump = ⟨Mode.DUMPING, 1, true, false⟩
    ∧ (run (initSess true false) [Ev.tDump, Ev.tDump]).active ≤ 1 :=
  ⟨(claim_C1_mode_machine.1 ⟨Mode.DUMPING, 1, true, false⟩ (by decide)).1,
    (claim_C1_mode_machine.2.2 true false [Ev.tDump, Ev.tDump]).1⟩

/-- The state in which the claim's cue promise fails: an extraction is running
and the device is disconnected (outside emulation). -/
def c3State : Sess := ⟨Mode.DUMPING, 1, false, false⟩

/-- Claim C3 counterexample: in a disconnected non-emulated state whose mode is
not IDLE, the dump trigger is rejected with no mode change and no workflow —
but also with no audible cue, because the mode check returns before the
connectivity check: the claim's "the disconnected case additionally emits an
audible error cue" fails at this state. -/
theorem claim_C3_counterexample :
    trigger_dump c3State = (c3State, false, false)
    ∧ c3State.connected = false ∧ c3State.emulation = false
    ∧ c3State.mode ≠ Mode.IDLE := by
  refine ⟨by decide, by decide, by decide, by decide⟩

/-- Claim C3 (amended): a dump trigger with mode ≠ IDLE is rejected
synchronously with no state change, no workflow and no cue; a trigger with
mode = IDLE but no device marked connected (outside emulation) is rejected
with no state change, no workflow, and the audible error cue. -/
theorem claim_C3_dump_guard (s : Sess) :
    (s.mode ≠ Mode.IDLE → trigger_dump s = (s, false, false))
    ∧ (s.mode = Mode.IDLE → s.connected = false → s.emulation = false →
        trigger_dump s = (s, false, true)) := by
  constructor
  · intro hm
    rw [trigger_dump, if_pos hm]
  · intro hm hc he
    rw [trigger_dump, if_neg (by simp [hm]), if_pos ⟨hc, he⟩]

/-- Witness for C3: the two rejection kinds at concrete states. -/
theorem claim_C3_dump_guard_witness :
    trigger_dump ⟨Mode.PAIRING, 1, true, false⟩ = (⟨Mode.PAIRING, 1, true, false⟩, false, false)
    ∧ trigger_dump ⟨Mode.IDLE, 0, false, false⟩ = (⟨Mode.IDLE, 0, false, false⟩, false, true) :=
  ⟨(claim_C3_dump_guard ⟨Mode.PAIRING, 1, true, false⟩).1 (by decide),
    (claim_C3_dump_guard ⟨Mode.IDLE, 0, false, false⟩).2 rfl rfl rfl⟩

/-! ## The extraction workflow (`_perform_extraction`, server.py 776-1079) -/

/-- The flags and accumulated text computed by the inline version probe of
`_perform_extraction`. -/
structure ProbeOut where
  isArdu : Bool
  isBf : Bool
  validFw : Bool
  versionInfo : List Char
deriving DecidableEq

def binaryDataMsg : List Char := "Detected Binary Data (Possible ArduPilot/MAVLink)".toList

/-- The probe read loop of `_perform_extraction` (lines 810-837).  The input is
the sequence of reads within the 3-second window; `none` stands for a read
that raised, handled by the except branch that assumes a binary MAVLink
device (decoding itself ignores errors and never raises). -/
def probeLoop : List (Option (List Nat)) → ProbeOut → ProbeOut
  | [], st => st
  | none :: _, st =>
    { st with isArdu := true, validFw := true, versionInfo := binaryDataMsg }
  | some bl :: rest, st =>
    if containsSub kwArduPilot (utf8DecodeIgnore bl)
        || containsSub kwChibiOS (utf8DecodeIgnore bl) then
      { st with
        isArdu := true
        validFw := true
        versionInfo := st.versionInfo ++ utf8DecodeIgnore bl }
    else
      let st2 :=
        if containsSub kwBetaflight (utf8DecodeIgnore bl) then
          { st with
            isBf := true
            validFw := true
            versionInfo := st.versionInfo ++ utf8DecodeIgnore bl }
        else if containsSub kwINAV (utf8DecodeIgnore bl)
            || containsSub kwEmuflight (utf8DecodeIgnore bl) then
          { st with validFw := true, versionInfo := st.versionInfo ++ utf8DecodeIgnore bl }
        else { st with versionInfo := st.versionInfo ++ utf8DecodeIgnore bl }
      if containsSub kwGCC (utf8DecodeIgnore bl)
          || containsSub kwConfig (utf8DecodeIgnore bl) then st2
      else probeLoop rest st2

/-- The environment of one run of `_perform_extraction`: which of its fallible
external steps raise.  Failures of `get_board_name`, of the cloud upload and
of the MAVLink handshake are caught by their own inline handlers (lines
1026-1029, 1052-1062, 988-1006) and cannot change the final state, so they
are not listed.  The prologue (`stop_animation = True`, `stop_socat`,
`stop_bt_proxy`, log reset) is modeled as non-raising, matching the stop
helpers' own exception handling. -/
structure ExtractEnv where
  emulation : Bool
  openErr : Bool
  probeReads : List (Option (List Nat))
  saveErr : Bool
deriving DecidableEq

/-- The outcome of the try-block of `_perform_extraction`. -/
inductive BodyOut
  | earlyIdle (savedDiagnostic : Bool)
  | done (savedDump : Bool)
deriving DecidableEq

/-- The try-block of `_perform_extraction` (lines 788-1069): an `Except.error`
is an exception reaching the top-level handler (line 1071); `earlyIdle` is the
unknown-device diagnostic path (lines 839-869), which sets the state back to
IDLE, clears the animation flag and returns from inside the try-block; `done`
falls through the save/upload steps to the end of the block. -/
def extractionBody (env : ExtractEnv) : Except Unit BodyOut :=
  if env.emulation then
    if env.saveErr then .error () else .ok (.done true)
  else if env.openErr then .error ()
  else if (probeLoop env.probeReads ⟨false, false, false, []⟩).validFw = false then
    if env.saveErr then .error () else .ok (.earlyIdle true)
  else
    if env.saveErr then .error () else .ok (.done true)

/-- The observable outcome of one `_perform_extraction` run. -/
structure ExtractResult where
  mode : Mode
  stopAnim : Bool
  savedDiagnostic : Bool
  savedDump : Bool
  escaped : Bool
deriving DecidableEq

/-- `_perform_extraction` from the point of view of the session: the
early-return path executes `state = IDLE; stop_animation = False` itself
(lines 866-869); any exception in the try-block is caught by the broad
handler (lines 1071-1075); both the normal fall-through and the handler reach
the epilogue `state = IDLE; stop_animation = False` (lines 1077-1079).  No
path re-raises, so `escaped` is false whenever a branch exists for the run. -/
def perform_extraction (env : ExtractEnv) : ExtractResult :=
  match extractionBody env with
  | .ok (.earlyIdle sd) => ⟨Mode.IDLE, false, sd, false, false⟩
  | .ok (.done sv) => ⟨Mode.IDLE, false, false, sv, false⟩
  | .error () => ⟨Mode.IDLE, false, false, false, false⟩

/-- Claim C2: every execution of the extraction workflow finishes with mode
IDLE and the animation-suppression flag cleared — on the success path, on the
unknown-device diagnostic path, and when any step of the try-block raises;
no exception escapes the workflow, and the unknown-device path (absent a
save failure) does write its diagnostic file. -/
theorem claim_C2_extraction_returns_idle (env : ExtractEnv) :
    (perform_extraction env).mode = Mode.IDLE
    ∧ (perform_extraction env).stopAnim = false
    ∧ (perform_extraction env).escaped = false
    ∧ (env.emulation = false → env.openErr = false → env.saveErr = false →
        (probeLoop env.probeReads ⟨false, false, false, []⟩).validFw = false →
        (perform_extraction env).savedDiagnostic = true) := by
  refine ⟨?_, ?_, ?_, ?_⟩
  · rw [perform_extraction]
    rcases hb : extractionBody env with e | o
    · cases e
      rfl
    · cases o <;> rfl
  · rw [perform_extraction]
    rcases hb : extractionBody env with e | o
    · cases e
      rfl
    · cases o <;> rfl
  · rw [perform_extraction]
    rcases hb : extractionBody env with e | o
    · cases e
      rfl
    · cases o <;> rfl
  · intro hemu hopen hsave hfw
    rw [perform_extraction, extractionBody, if_neg (by simp [hemu]), if_neg (by simp [hopen]),
      if_pos (by simp [hfw]), if_neg (by simp [hsave])]

/-- Witness for C2: the unknown-device scenario (three seconds of garbage):
the diagnostic file is written, the mode returns to IDLE, nothing escapes. -/
theorem claim_C2_extraction_returns_idle_witness :
    (perform_extraction ⟨false, false, [some [0xff, 0xfe], some [0x00]], false⟩).mode = Mode.IDLE
    ∧ (perform_extraction ⟨false, false, [some [0xff, 0xfe], some [0x00]], false⟩).savedDiagnostic
        = true :=
  ⟨(claim_C2_extraction_returns_idle _).1,
    (claim_C2_extraction_returns_idle ⟨false, false, [some [0xff, 0xfe], some [0x00]], false⟩).2.2.2
      rfl rfl rfl (by decide)⟩

/-! ## The silence-based dump read (server.py lines 929-947)

Time is discretized in ticks of 0.1 s, the sleep interval of the loop's empty
branch: the 90 s hard timeout is 900 ticks, the 2 s silence threshold is 20
ticks.  `pending` is the queue of lines waiting in the serial buffer
(`ser.in_waiting` is true exactly while it is nonempty); `rd k` is the time in
ticks taken by the k-th `readline` (at least one tick, since reading a line
from the port takes real time).  The fuel argument only serves termination:
every iteration advances the clock by at least one tick, so 901 ticks of fuel
outlast the 900-tick timeout check at the head of the loop. -/

def silenceTicks : Nat := 20
def timeoutTicks : Nat := 900

/-- One run of the heuristic read loop (arguments: fuel, clock, time of last
data, accumulated dump content, buffered lines, iteration counter).  Returns
the exit time, the content, and whether the loop exited through the silence
test (true) or through the hard timeout (false). -/
def rusLoop (rd : Nat → Nat) :
    Nat → Nat → Nat → List Char → List (List Char) → Nat → Nat × List Char × Bool
  | 0, now, _, content, _, _ => (now, content, false)
  | fuel + 1, now, lastData, content, pending, k =>
    if timeoutTicks ≤ now then (now, content, false)
    else
      match pending with
      | l :: ls =>
        rusLoop rd fuel (now + max 1 (rd k)) (now + max 1 (rd k)) (content ++ l) ls (k + 1)
      | [] =>
        if 100 < content.length ∧ silenceTicks ≤ now - lastData then (now, content, true)
        else rusLoop rd fuel (now + 1) lastData content [] (k + 1)

/-- The read loop as entered by `_perform_extraction`: clock and last-data
time start at zero, the header is already in `dump_content`, and the device's
burst of response lines is waiting in the buffer (after which it is silent
forever). -/
def readUntilSilence (rd : Nat → Nat) (init : List Char) (data : List (List Char)) :
    Nat × List Char × Bool :=
  rusLoop rd (timeoutTicks + 1) 0 0 init data 0

/-- The header placed into `dump_content` before the command batch is sent
(lines 916 and 954). -/
def extractionHeader (v : List Char) : List Char :=
  "--- BEATHA EXTRACTION HEADER ---\n".toList ++ v ++ "\n--- END HEADER ---\n\n".toList

/-- Total reading time of the buffered lines, starting at iteration k. -/
def sumDur (rd : Nat → Nat) : Nat → List (List Char) → Nat
  | _, [] => 0
  | k, _ :: ls => max 1 (rd k) + sumDur rd (k + 1) ls

def totalLen (data : List (List Char)) : Nat := (data.map List.length).sum

theorem rusLoop_silence (rd : Nat → Nat) :
    ∀ (fuel now lastData k : Nat) (content : List Char),
      100 < content.length → lastData ≤ now → now ≤ lastData + silenceTicks →
      lastData + silenceTicks < timeoutTicks → lastData + silenceTicks < now + fuel →
      rusLoop rd fuel now lastData content [] k =
        (lastData + silenceTicks, content, true) := by
  intro fuel
  induction fuel with
  | zero =>
    intro now lastData k content _ _ h3 _ h5
    omega
  | succ fuel ih =>
    intro now lastData k content h1 h2 h3 h4 h5
    rw [rusLoop]
    rw [if_neg (by omega)]
    by_cases heq : now = lastData + silenceTicks
    · rw [if_pos ⟨h1, by omega⟩, heq]
    · rw [if_neg (by
        rintro ⟨_, hs⟩
        omega)]
      exact ih (now + 1) lastData (k + 1) content h1 (by omega) (by omega) h4 (by omega)

theorem rusLoop_consume (rd : Nat → Nat) :
    ∀ (data : List (List Char)) (fuel now k : Nat) (content : List Char),
      now + sumDur rd k data + silenceTicks < timeoutTicks →
      100 < content.length + totalLen data →
      timeoutTicks < now + fuel →
      rusLoop rd fuel now now content data k =
        (now + sumDur rd k data + silenceTicks, content ++ data.flatten, true) := by
  intro data
  induction data with
  | nil =>
    intro fuel now k content h1 h2 h5
    simp only [sumDur, Nat.add_zero, List.flatten_nil, List.append_nil]
    rw [rusLoop_silence rd fuel now now k content (by simpa [totalLen] using h2) le_rfl
      (by omega) (by simpa [sumDur] using h1) (by omega)]
  | cons l ls ih =>
    intro fuel now k content h1 h2 h5
    cases fuel with
    | zero =>
      exfalso
      simp only [sumDur] at h1
      omega
    | succ fuel =>
      rw [rusLoop]
      rw [if_neg (by simp only [sumDur] at h1; omega)]
      have hmax : 1 ≤ max 1 (rd k) := le_max_left 1 (rd k)
      rw [ih fuel (now + max 1 (rd k)) (k + 1) (content ++ l)
        (by simp only [sumDur] at h1; omega)
        (by simp [totalLen] at h2 ⊢; omega)
        (by omega)]
      simp only [sumDur, List.flatten_cons, List.append_assoc]
      congr 1
      omega

/-- Claim C8 (amended): the silence-based read completes on two seconds of
continuous silence only once the accumulated content (header included) exceeds
100 characters, or at the 90-second hard timeout, whichever comes first; in
particular every stream that goes silent after delivering at least 100 bytes
(with the reads and the silence window fitting before the timeout) makes the
read return at burst-end plus the silence threshold, strictly before the hard
timeout, through the silence exit. -/
theorem claim_C8_read_until_silence (rd : Nat → Nat) (v : List Char)
    (data : List (List Char)) (h1 : 100 ≤ totalLen data)
    (h2 : sumDur rd 0 data + silenceTicks < timeoutTicks) :
    readUntilSilence rd (extractionHeader v) data =
      (sumDur rd 0 data + silenceTicks, extractionHeader v ++ data.flatten, true)
    ∧ sumDur rd 0 data + silenceTicks < timeoutTicks := by
  refine ⟨?_, h2⟩
  rw [readUntilSilence, rusLoop_consume rd data (timeoutTicks + 1) 0 0 (extractionHeader v)
    (by omega) (by simp [extractionHeader]; omega) (by omega)]
  simp

/-- Witness for C8: one hundred bytes arriving in one line read in one tick,
then silence: the read returns at tick 21, not at the 900-tick timeout. -/
theorem claim_C8_read_until_silence_witness :
    readUntilSilence (fun _ => 1) (extractionHeader []) [List.replicate 100 'a'] =
      (21, extractionHeader [] ++ [List.replicate 100 'a'].flatten, true) := by
  have h := claim_C8_read_until_silence (fun _ => 1) [] [List.replicate 100 'a']
    (by decide) (by decide)
  simpa [sumDur, silenceTicks] using h.1

/-- The version line and the short response of the counterexample run. -/
def c8Version : List Char := "# INAV 5.0".toList

def c8Line : List Char := "0123456789".toList

set_option maxRecDepth 40000

/-- Claim C8 counterexample: the stream delivers ten bytes at tick zero and is
then silent forever — far longer than the silence threshold — yet because the
accumulated content (header plus ten bytes, 74 characters) never exceeds 100,
the read only returns at the 900-tick hard timeout, not at silence-threshold
time as the claim's completion rule promises. -/
theorem claim_C8_counterexample :
    readUntilSilence (fun _ => 1) (extractionHeader c8Version) [c8Line] =
      (timeoutTicks, extractionHeader c8Version ++ c8Line, false)
    ∧ 1 + silenceTicks < timeoutTicks
    ∧ (extractionHeader c8Version ++ c8Line).length ≤ 100 := by
  refine ⟨by decide, by decide, by decide⟩

/-! ## Port scorer (src/detect_ports.py, detect_flight_controller_ports;
the same scoring also lives in server.py `_detect_serial_port`) -/

/-- One enumerated serial device as seen by the scorer. -/
structure PortInfo where
  device : List Char
  vid : Option Nat
  pid : Option Nat
  description : Option (List Char)
  manufacturer : Option (List Char)
deriving DecidableEq

/-- The curated vendor:product pairs of detect_ports.py. -/
def KNOWN_FC_VIDPID : List (Nat × Nat) :=
  [(0x0483, 0x5740), (0x0483, 0xdf11), (0x10c4, 0xea60), (0x0403, 0x6001),
    (0x0403, 0x6015), (0x2341, 0x0001), (0x2341, 0x0043), (0x16c0, 0x0483),
    (0x1fc9, 0x0083)]

def lowerStr (l : List Char) : List Char := l.map Char.toLower

def kwACM : List Char := "ACM".toList
def kwUSB : List Char := "USB".toList

def descKeywords : List (List Char) :=
  ["stm32".toList, "betaflight".toList, "inav".toList, "arduino".toList, "flight".toList]

def mfrKeywords : List (List Char) :=
  ["stm".toList, "silicon labs".toList, "ftdi".toList, "arduino".toList]

/-- The vendor:product signal (+10).  Python tests `if port.vid and port.pid`,
so a missing or zero identifier never scores. -/
def vidpidScore (p : PortInfo) : Nat :=
  match p.vid, p.pid with
  | some v, some i => if v ≠ 0 ∧ i ≠ 0 ∧ (v, i) ∈ KNOWN_FC_VIDPID then 10 else 0
  | _, _ => 0

/-- The device-path signal: +5 for an ACM-pattern path, else +3 for a generic
USB-serial path. -/
def deviceScore (p : PortInfo) : Nat :=
  if containsSub kwACM p.device then 5
  else if containsSub kwUSB p.device then 3
  else 0

/-- The description-keyword signal (+5); a missing description behaves as the
empty string. -/
def descScore (p : PortInfo) : Nat :=
  if descKeywords.any (fun kw => containsSub kw (lowerStr (p.description.getD []))) then 5
  else 0

/-- The manufacturer-keyword signal (+3). -/
def mfrScore (p : PortInfo) : Nat :=
  if mfrKeywords.any (fun kw => containsSub kw (lowerStr (p.manufacturer.getD []))) then 3
  else 0

/-- The additive score of one candidate. -/
def portScore (p : PortInfo) : Nat :=
  vidpidScore p + deviceScore p + descScore p + mfrScore p

/-- `detect_flight_controller_ports`: keep the devices scoring above zero and
stable-sort them by score, highest first (Python `list.sort` with
`reverse=True` is a stable descending sort, realized here by `mergeSort` with
the reversed comparison, which is stable). -/
def detect_flight_controller_ports (ports : List PortInfo) : List PortInfo :=
  (ports.filter (fun p => decide (0 < portScore p))).mergeSort
    (fun a b => decide (portScore b ≤ portScore a))

theorem portScore_trans (a b c : PortInfo)
    (h1 : decide (portScore b ≤ portScore a) = true)
    (h2 : decide (portScore c ≤ portScore b) = true) :
    decide (portScore c ≤ portScore a) = true := by
  simp only [decide_eq_true_iff] at h1 h2 ⊢
  omega

theorem portScore_total (a b : PortInfo) :
    (decide (portScore b ≤ portScore a) || decide (portScore a ≤ portScore b)) = true := by
  rcases Nat.le_total (portScore b) (portScore a) with h | h <;> simp [h]

/-- Claim C9: the Port Scorer gives every candidate a non-negative additive
score, returns exactly the devices scoring above zero sorted descending by
score (empty when none does), and is deterministic and order-preserving on
ties: within each score class the output preserves the enumeration order. -/
theorem claim_C9_port_scorer (ports : List PortInfo) :
    (∀ p ∈ detect_flight_controller_ports ports, 0 < portScore p)
    ∧ (detect_flight_controller_ports ports).Pairwise
        (fun a b => portScore b ≤ portScore a)
    ∧ (detect_flight_controller_ports ports).Perm
        (ports.filter (fun p => decide (0 < portScore p)))
    ∧ (detect_flight_controller_ports ports = [] ↔ ∀ p ∈ ports, portScore p = 0)
    ∧ (∀ n, (detect_flight_controller_ports ports).filter (fun p => decide (portScore p = n))
        = (ports.filter (fun p => decide (0 < portScore p))).filter
            (fun p => decide (portScore p = n))) := by
  have hperm : (detect_flight_controller_ports ports).Perm
      (ports.filter (fun p => decide (0 < portScore p))) :=
    List.mergeSort_perm _ _
  refine ⟨?_, ?_, hperm, ?_, ?_⟩
  · intro p hp
    have := hperm.mem_iff.mp hp
    have := List.of_mem_filter this
    simpa using this
  · have hp := @List.sorted_mergeSort PortInfo (fun a b => decide (portScore b ≤ portScore a))
      portScore_trans portScore_total (ports.filter (fun p => decide (0 < portScore p)))
    exact hp.imp (fun h => by simpa using h)
  · constructor
    · intro hnil p hp
      by_contra hne
      have hmem : p ∈ ports.filter (fun p => decide (0 < portScore p)) :=
        List.mem_filter.mpr ⟨hp, by simpa using Nat.pos_of_ne_zero hne⟩
      rw [← hperm.mem_iff] at hmem
      rw [hnil] at hmem
      cases hmem
    · intro hall
      have : ports.filter (fun p => decide (0 < portScore p)) = [] := by
        rw [List.filter_eq_nil_iff]
        intro p hp
        simp [hall p hp]
      rw [detect_flight_controller_ports, this]
      exact List.mergeSort_nil
  · intro n
    set cands := ports.filter (fun p => decide (0 < portScore p)) with hcands
    set c := cands.filter (fun p => decide (portScore p = n)) with hc
    have hcpair : c.Pairwise (fun a b => decide (portScore b ≤ portScore a) = true) := by
      have : ∀ a ∈ c, portScore a = n := by
        intro a ha
        simpa using List.of_mem_filter ha
      rw [List.pairwise_iff_forall_sublist]
      intro a b hsub
      have ha := this a (hsub.subset (by simp))
      have hb := this b (hsub.subset (by simp))
      simp [ha, hb]
    have hcsub : List.Sublist c (detect_flight_controller_ports ports) :=
      List.sublist_mergeSort portScore_trans portScore_total hcpair (List.filter_sublist _)
    have hfsub : List.Sublist (c.filter (fun p => decide (portScore p = n)))
        ((detect_flight_controller_ports ports).filter (fun p => decide (portScore p = n))) :=
      hcsub.filter _
    rw [List.filter_filter] at hfsub
    have hcf : cands.filter (fun p => decide (portScore p = n) && decide (portScore p = n)) = c := by
      rw [hc]
      apply List.filter_congr
      intro p _
      simp
    rw [hcf] at hfsub
    have hlen : ((detect_flight_controller_ports ports).filter
        (fun p => decide (portScore p = n))).length = c.length :=
      (hperm.filter _).length_eq
    exact (hfsub.eq_of_length hlen.symm).symm

/-- A device that scores nothing. -/
def p9low : PortInfo := ⟨"/dev/ttyS0".toList, none, none, none, none⟩

/-- A top-scoring flight-controller device. -/
def p9hi : PortInfo :=
  ⟨"/dev/ttyACM0".toList, some 0x0483, some 0x5740,
    some "STM32 Virtual ComPort".toList, some "STMicroelectronics".toList⟩

/-- Witness for C9: a list with no positive scorer yields the empty result,
and the tie-class filter equality at the top score on a concrete list. -/
theorem claim_C9_port_scorer_witness :
    detect_flight_controller_ports [p9low] = []
    ∧ (detect_flight_controller_ports [p9low, p9hi]).filter
        (fun p => decide (portScore p = 23))
      = ([p9low, p9hi].filter (fun p => decide (0 < portScore p))).filter
          (fun p => decide (portScore p = 23)) :=
  ⟨(claim_C9_port_scorer [p9low]).2.2.2.1.mpr (by decide),
    (claim_C9_port_scorer [p9low, p9hi]).2.2.2.2 23⟩

end Beatha
